import Mathlib

/-!
A shallow embedding of the Q-learning update implementations found in
d3rlpy/algos/qlearning/torch/dqn_impl.py and
d3rlpy/algos/qlearning/torch/sac_impl.py.

Tensors are modelled as nested lists of rationals, with the batch axis
outermost.  The external collaborators of these classes (the ensemble
Q-function forwarders, the policy modules, torch.exp, math.log,
F.log_softmax, hard_sync) are not part of the given sources; where a claim
depends on them they are modelled from the spec, and each such definition
says so in its doc comment.
-/

namespace D3rlpy

/-- Mean of a list of rationals: sum divided by length (0 for the empty
list, matching the convention that division by zero yields zero in ℚ). -/
def qmean (xs : List ℚ) : ℚ := xs.sum / xs.length

/-- Index of the first occurrence of the maximal element of a list,
modelling torch.argmax along the action axis (0 for the empty list). -/
def argmaxIdx (xs : List ℚ) : Nat :=
  (xs.foldl
    (fun (acc : Nat × Nat × ℚ) x =>
      if acc.2.2 < x then (acc.2.1, acc.2.1 + 1, x)
      else (acc.1, acc.2.1 + 1, acc.2.2))
    (0, 0, xs.headD 0)).1

/-- Minimum of a list of rationals with default 0 for the empty list,
modelling the "min" ensemble reduction across ensemble members. -/
def minD : List ℚ → ℚ
  | [] => 0
  | x :: xs => xs.foldl min x

/-- Column-wise sums of a list of rows, modelling a tensor sum over the
row axis (used for the sum over ensemble members and over actions). -/
def sumCols : List (List ℚ) → List ℚ
  | [] => []
  | [r] => r
  | r :: s :: t => List.zipWith (· + ·) r (sumCols (s :: t))

/-- Column-wise minimum of a list of rows, modelling the element-wise
"min" reduction across ensemble members. -/
def minCols : List (List ℚ) → List ℚ
  | [] => []
  | [r] => r
  | r :: s :: t => List.zipWith min r (minCols (s :: t))

/-- Column-wise mean of a list of rows: element-wise sum divided by the
number of rows. -/
def meanCols (mat : List (List ℚ)) : List ℚ :=
  (sumCols mat).map (· / (mat.length : ℚ))

/-- One temporal-difference target value, reward + gamma * target * (1 -
terminal), where gamma is the per-sample discount factor passed to
compute_error. -/
def tdTarget (r g t d : ℚ) : ℚ := r + g * t * (1 - d)

/-- Per-sample temporal-difference targets: a four-way zip of rewards,
per-sample discounts, bootstrapped targets, and terminal flags. -/
def tdTargets : List ℚ → List ℚ → List ℚ → List ℚ → List ℚ
  | r :: rs, g :: gs, t :: ts, d :: ds =>
      tdTarget r g t d :: tdTargets rs gs ts ds
  | _, _, _, _ => []

/-- The TorchMiniBatch fields used by the embedded update rules
(torch_utility.py is outside the given sources; the field list follows the
spec section on the data model).  Discrete actions are natural numbers and
step intervals are natural numbers. -/
structure TorchMiniBatch (Obs : Type) where
  observations : List Obs
  next_observations : List Obs
  actions : List Nat
  rewards : List ℚ
  terminals : List ℚ
  intervals : List Nat

/-- Modelled from the spec: DiscreteEnsembleQFunctionForwarder
(models/torch is outside the given sources).  An ensemble of Q functions,
each mapping an observation to one row of per-action Q values. -/
structure DiscreteEnsembleQFunctionForwarder (Obs : Type) where
  members : List (Obs → List ℚ)

namespace DiscreteEnsembleQFunctionForwarder

variable {Obs : Type}

/-- Modelled from the spec: compute_expected_q with the default "mean"
reduction produces, per observation, the element-wise mean across the
ensemble members of their per-action Q rows. -/
def compute_expected_q (fw : DiscreteEnsembleQFunctionForwarder Obs)
    (obs : List Obs) : List (List ℚ) :=
  obs.map (fun o => meanCols (fw.members.map (fun m => m o)))

/-- Modelled from the spec: compute_expected_q with the "min" reduction
produces, per observation, the element-wise minimum across the ensemble
members of their per-action Q rows. -/
def compute_expected_q_min (fw : DiscreteEnsembleQFunctionForwarder Obs)
    (obs : List Obs) : List (List ℚ) :=
  obs.map (fun o => minCols (fw.members.map (fun m => m o)))

/-- Modelled from the spec: compute_target at a given per-sample action
with the "min" reduction takes, per sample, the minimum across ensemble
members of the member Q value at that action. -/
def compute_target (fw : DiscreteEnsembleQFunctionForwarder Obs)
    (obs : List Obs) (actions : List Nat) : List ℚ :=
  List.zipWith
    (fun o a => minD (fw.members.map (fun m => (m o).getD a 0)))
    obs actions

/-- Modelled from the spec: compute_error builds the temporal-difference
target reward + gamma * target * (1 - terminal) per sample (gamma is the
per-sample discount tensor the caller passes) and accumulates, over the
ensemble members, the mean squared difference between the member Q value
at the taken action and that target. -/
def compute_error (fw : DiscreteEnsembleQFunctionForwarder Obs)
    (observations : List Obs) (actions : List Nat) (rewards : List ℚ)
    (target : List ℚ) (terminals : List ℚ) (gamma : List ℚ) : ℚ :=
  let ys := tdTargets rewards gamma target terminals
  (fw.members.map (fun m =>
    qmean (List.zipWith
      (fun (oa : Obs × Nat) y => ((m oa.1).getD oa.2 0 - y) ^ 2)
      (observations.zip actions) ys))).sum

end DiscreteEnsembleQFunctionForwarder

/-- The data of DQNImpl that its update rules read: the live and target
ensemble forwarders and the discount factor (dqn_impl.py lines 24-48). -/
structure DQNImplData (Obs : Type) where
  q_func_forwarder : DiscreteEnsembleQFunctionForwarder Obs
  targ_q_func_forwarder : DiscreteEnsembleQFunctionForwarder Obs
  gamma : ℚ

namespace DQNImpl

variable {Obs : Type}

/-- DQNImpl.compute_target (dqn_impl.py lines 78-88): expected Q of the
target ensemble over next_observations, arg-max along the action axis,
then the target ensemble compute_target at that action with the "min"
reduction.  The torch.no_grad scope is modelled separately by the
instrumented state-passing semantics below. -/
def compute_target (self : DQNImplData Obs) (batch : TorchMiniBatch Obs) :
    List ℚ :=
  let next_actions :=
    self.targ_q_func_forwarder.compute_expected_q batch.next_observations
  let max_action := next_actions.map argmaxIdx
  self.targ_q_func_forwarder.compute_target batch.next_observations
    max_action

/-- DQNImpl.compute_loss (dqn_impl.py lines 64-76): the forwarder
compute_error on the batch, with the gamma argument the discount factor
raised element-wise to the batch intervals. -/
def compute_loss (self : DQNImplData Obs) (batch : TorchMiniBatch Obs)
    (q_tpn : List ℚ) : ℚ :=
  self.q_func_forwarder.compute_error batch.observations batch.actions
    batch.rewards q_tpn batch.terminals
    (batch.intervals.map (fun n => self.gamma ^ n))

/-- DQNImpl.inner_predict_best_action (dqn_impl.py lines 90-91): arg-max
of the live ensemble expected Q. -/
def inner_predict_best_action (self : DQNImplData Obs) (x : List Obs) :
    List Nat :=
  (self.q_func_forwarder.compute_expected_q x).map argmaxIdx

/-- DQNImpl.inner_sample_action (dqn_impl.py lines 93-94): delegates to
inner_predict_best_action. -/
def inner_sample_action (self : DQNImplData Obs) (x : List Obs) :
    List Nat :=
  inner_predict_best_action self x

end DQNImpl

namespace DoubleDQNImpl

variable {Obs : Type}

/-- DoubleDQNImpl.compute_target (dqn_impl.py lines 108-116): the action
is chosen by inner_predict_best_action, hence by the arg-max of the live
ensemble expected Q, and evaluated by the target ensemble compute_target
with the "min" reduction. -/
def compute_target (self : DQNImplData Obs) (batch : TorchMiniBatch Obs) :
    List ℚ :=
  let action := DQNImpl.inner_predict_best_action self
    batch.next_observations
  self.targ_q_func_forwarder.compute_target batch.next_observations action

end DoubleDQNImpl

/-- The expected-Q row of an ensemble at one observation: element-wise
mean over the member rows (spec-side restatement used to state claims). -/
def expectedQRow {Obs : Type} (fw : DiscreteEnsembleQFunctionForwarder Obs)
    (o : Obs) : List ℚ :=
  meanCols (fw.members.map (fun m => m o))

/-- The "min"-reduced target of an ensemble at one observation and one
action: minimum over the members of the Q value at that action (spec-side
restatement used to state claims). -/
def targetMinAt {Obs : Type} (fw : DiscreteEnsembleQFunctionForwarder Obs)
    (o : Obs) (a : Nat) : ℚ :=
  minD (fw.members.map (fun m => (m o).getD a 0))

/-- Per-sample temporal-difference targets as the claim words them:
reward + gamma ^ interval * target * (1 - terminal). -/
def specTDTargets (gamma : ℚ) :
    List ℚ → List ℚ → List ℚ → List Nat → List ℚ
  | r :: rs, t :: ts, d :: ds, n :: ns =>
      (r + gamma ^ n * t * (1 - d)) :: specTDTargets gamma rs ts ds ns
  | _, _, _, _ => []

/-- The critic loss as the claim words it: sum over ensemble members of
the mean squared difference between the member Q value at the taken
action and the target reward + gamma ^ interval * target * (1 -
terminal). -/
def specCriticLoss {Obs : Type}
    (fw : DiscreteEnsembleQFunctionForwarder Obs) (gamma : ℚ)
    (batch : TorchMiniBatch Obs) (q_tpn : List ℚ) : ℚ :=
  (fw.members.map (fun m =>
    qmean (List.zipWith
      (fun (oa : Obs × Nat) y => ((m oa.1).getD oa.2 0 - y) ^ 2)
      (batch.observations.zip batch.actions)
      (specTDTargets gamma batch.rewards q_tpn batch.terminals
        batch.intervals)))).sum

/-- Ranked tensor of rationals with the batch axis outermost, ranks 1 to
3 (the only ranks the embedded code manipulates). -/
inductive DTensor : Type where
  | t1 : List ℚ → DTensor
  | t2 : List (List ℚ) → DTensor
  | t3 : List (List (List ℚ)) → DTensor

/-- Number of axes of a tensor, modelling Tensor.dim(). -/
def DTensor.dim : DTensor → Nat
  | t1 _ => 1
  | t2 _ => 2
  | t3 _ => 3

/-- Element-wise combination of two rows with torch broadcasting along
this axis: a row of size 1 is expanded to the size of the other row.
Rows of equal size combine position-wise; other size mismatches never
arise in the embedded code. -/
def bcast (f : ℚ → ℚ → ℚ) : List ℚ → List ℚ → List ℚ
  | [], _ => []
  | [_], [] => []
  | [x], [y] => [f x y]
  | [x], y :: y2 :: ys => (y :: y2 :: ys).map (f x)
  | _ :: _ :: _, [] => []
  | x :: x2 :: xs, [y] => (x :: x2 :: xs).map (fun a => f a y)
  | x :: x2 :: xs, y :: y2 :: ys =>
      List.zipWith f (x :: x2 :: xs) (y :: y2 :: ys)

/-- Element-wise combination of two tensors of equal rank, broadcasting
along the innermost axis (the only broadcasting the embedded code needs;
a rank mismatch, which the code never produces, yields an empty rank-1
tensor). -/
def DTensor.ewise (f : ℚ → ℚ → ℚ) : DTensor → DTensor → DTensor
  | t1 a, t1 b => t1 (bcast f a b)
  | t2 a, t2 b => t2 (List.zipWith (bcast f) a b)
  | t3 a, t3 b => t3 (List.zipWith (List.zipWith (bcast f)) a b)
  | _, _ => t1 []

/-- Tensor subtraction. -/
def DTensor.sub (a b : DTensor) : DTensor := DTensor.ewise (· - ·) a b

/-- Tensor multiplication. -/
def DTensor.mul (a b : DTensor) : DTensor := DTensor.ewise (· * ·) a b

/-- Tensor.unsqueeze(-1): appends a trailing axis of size 1 (the code
never unsqueezes a rank-3 tensor, which is returned unchanged here). -/
def DTensor.unsqueezeLast : DTensor → DTensor
  | t1 a => t2 (a.map (fun x => [x]))
  | t2 a => t3 (a.map (fun row => row.map (fun x => [x])))
  | t3 a => t3 a

/-- Tensor.sum over dim 1 with a keepdim flag: sums away the second axis,
keeping it as a size-1 axis when the flag is true (the code never sums a
rank-1 tensor over dim 1; it is returned unchanged here). -/
def DTensor.sumDim1 : Bool → DTensor → DTensor
  | _, t1 a => t1 a
  | true, t2 m => t2 (m.map (fun r => [r.sum]))
  | false, t2 m => t1 (m.map List.sum)
  | true, t3 c => t3 (c.map (fun mat => [sumCols mat]))
  | false, t3 c => t2 (c.map sumCols)

/-- Modelled from the spec: the torch Categorical distribution produced
by CategoricalPolicy, seen through the two accessors the code uses.  The
logits accessor of a torch Categorical built by the policy returns
normalized log probabilities, so the model keeps probs and logits as the
two observable fields. -/
structure CatDist where
  probs : List ℚ
  logits : List ℚ

/-- Modelled from the spec: ContinuousEnsembleQFunctionForwarder, an
ensemble of Q functions each mapping an observation and an action to one
Q value (models/torch is outside the given sources). -/
structure ContinuousEnsembleQFunctionForwarder (Obs Act : Type) where
  members : List (Obs → Act → ℚ)

namespace ContinuousEnsembleQFunctionForwarder

variable {Obs Act : Type}

/-- Modelled from the spec: compute_expected_q with the "min" reduction
takes, per sample, the minimum across the ensemble members of the member
Q value at the given action. -/
def compute_expected_q (fw : ContinuousEnsembleQFunctionForwarder Obs Act)
    (obs : List Obs) (actions : List Act) : List ℚ :=
  List.zipWith (fun o a => minD (fw.members.map (fun m => m o a))) obs
    actions

/-- Modelled from the spec: compute_target with the "min" reduction, the
same minimum taken over the target ensemble members. -/
def compute_target (fw : ContinuousEnsembleQFunctionForwarder Obs Act)
    (obs : List Obs) (actions : List Act) : List ℚ :=
  List.zipWith (fun o a => minD (fw.members.map (fun m => m o a))) obs
    actions

end ContinuousEnsembleQFunctionForwarder

/-- The data of SACImpl read by its update rules (sac_impl.py lines
35-111).  The squashed-Gaussian distribution built from the policy output
is outside the given sources; following the spec it is modelled by a
per-observation draw: policy_sample o is the pair of action and log
probability that sample_with_log_prob produces at observation o.  texp
models torch.exp applied to the log-temperature Parameter. -/
structure SACImplData (Obs Act : Type) where
  policy_sample : Obs → Act × ℚ
  q_func_forwarder : ContinuousEnsembleQFunctionForwarder Obs Act
  targ_q_func_forwarder : ContinuousEnsembleQFunctionForwarder Obs Act
  log_temp : ℚ
  texp : ℚ → ℚ
  action_size : Nat

namespace SACImpl

variable {Obs Act : Type}

/-- SACImpl.compute_actor_loss (sac_impl.py lines 60-69): sample action
and log probability from the squashed-Gaussian policy at the batch
observations, form the entropy term exp(log_temp) * log_prob, the live
ensemble "min" expected Q at the sampled action, and return the mean of
entropy - Q. -/
def compute_actor_loss (self : SACImplData Obs Act)
    (batch : TorchMiniBatch Obs) : ℚ :=
  let pairs := batch.observations.map self.policy_sample
  let action := pairs.map (fun al => al.1)
  let log_prob := pairs.map (fun al => al.2)
  let entropy := log_prob.map (fun l => self.texp self.log_temp * l)
  let q_t :=
    self.q_func_forwarder.compute_expected_q batch.observations action
  qmean (List.zipWith (· - ·) entropy q_t)

/-- SACImpl.update_temp (sac_impl.py lines 71-93): the returned metrics
mapping.  The log probability is drawn inside torch.no_grad (modelled by
the instrumented semantics below); this definition captures the computed
values: targ_temp is log_prob minus the action size, the loss is the
negated mean of exp(log_temp) * targ_temp, and the mapping reports the
loss and the exponentiated temperature. -/
def update_temp (self : SACImplData Obs Act) (batch : TorchMiniBatch Obs) :
    List (String × ℚ) :=
  let log_prob :=
    batch.observations.map (fun o => (self.policy_sample o).2)
  let targ_temp := log_prob.map (fun l => l - (self.action_size : ℚ))
  let loss :=
    -(qmean (targ_temp.map (fun t => self.texp self.log_temp * t)))
  let cur_temp := self.texp self.log_temp
  [("temp_loss", loss), ("temp", cur_temp)]

/-- SACImpl.compute_target (sac_impl.py lines 95-107): sample action and
log probability at next_observations, and return the target ensemble
"min" target at that action minus the entropy term. -/
def compute_target (self : SACImplData Obs Act)
    (batch : TorchMiniBatch Obs) : List ℚ :=
  let pairs := batch.next_observations.map self.policy_sample
  let action := pairs.map (fun al => al.1)
  let log_prob := pairs.map (fun al => al.2)
  let entropy := log_prob.map (fun l => self.texp self.log_temp * l)
  let target := self.targ_q_func_forwarder.compute_target
    batch.next_observations action
  List.zipWith (· - ·) target entropy

end SACImpl

/-- The data of DiscreteSACImpl read by its update rules (sac_impl.py
lines 125-252).  policy maps an observation to the categorical
distribution object; targ_compute_target models the no-action
compute_target of the target ensemble forwarder, whose result is a rank-2
tensor for scalar critics and a rank-3 tensor for distributional critics;
texp models torch.exp, tlog models math.log, lsoftmax models
F.log_softmax along the action axis. -/
structure DiscreteSACImplData (Obs : Type) where
  policy : Obs → CatDist
  q_func_forwarder : DiscreteEnsembleQFunctionForwarder Obs
  targ_compute_target : List Obs → DTensor
  log_temp : ℚ
  texp : ℚ → ℚ
  tlog : ℚ → ℚ
  lsoftmax : List ℚ → List ℚ
  gamma : ℚ
  action_size : Nat

namespace DiscreteSACImpl

variable {Obs : Type}

/-- DiscreteSACImpl.compute_target (sac_impl.py lines 163-177): probs and
logits of the categorical policy at next_observations, the entropy term
exp(log_temp) * logits, the no-action target of the target ensemble; when
that target has three axes, entropy and probs gain a trailing size-1 axis
and the sum over the action axis keeps no dim, otherwise the summed axis
is kept. -/
def compute_target (self : DiscreteSACImplData Obs)
    (batch : TorchMiniBatch Obs) : DTensor :=
  let dists := batch.next_observations.map self.policy
  let log_probs := dists.map (fun d => d.logits)
  let probs := DTensor.t2 (dists.map (fun d => d.probs))
  let entropy := DTensor.t2 (log_probs.map (fun r =>
    r.map (fun l => self.texp self.log_temp * l)))
  let target := self.targ_compute_target batch.next_observations
  if target.dim = 3 then
    DTensor.sumDim1 false
      (DTensor.mul probs.unsqueezeLast
        (DTensor.sub target entropy.unsqueezeLast))
  else
    DTensor.sumDim1 true (DTensor.mul probs (DTensor.sub target entropy))

/-- DiscreteSACImpl.compute_critic_loss (sac_impl.py lines 179-191): the
forwarder compute_error on the batch with the gamma argument the discount
factor raised element-wise to the batch intervals; q_tpn is the
per-sample column of target values. -/
def compute_critic_loss (self : DiscreteSACImplData Obs)
    (batch : TorchMiniBatch Obs) (q_tpn : List ℚ) : ℚ :=
  self.q_func_forwarder.compute_error batch.observations batch.actions
    batch.rewards q_tpn batch.terminals
    (batch.intervals.map (fun n => self.gamma ^ n))

/-- DiscreteSACImpl.compute_actor_loss (sac_impl.py lines 207-216): the
live ensemble "min" expected Q over all actions (inside torch.no_grad,
modelled by the instrumented semantics below), then the mean over the
batch of the sum over actions of probs * (entropy - Q). -/
def compute_actor_loss (self : DiscreteSACImplData Obs)
    (batch : TorchMiniBatch Obs) : ℚ :=
  let q_t :=
    self.q_func_forwarder.compute_expected_q_min batch.observations
  let dists := batch.observations.map self.policy
  qmean (List.zipWith
    (fun (d : CatDist) qrow =>
      (List.zipWith (· * ·) d.probs
        (List.zipWith (· - ·)
          (d.logits.map (fun l => self.texp self.log_temp * l)) qrow)).sum)
    dists q_t)

/-- The values computed inside DiscreteSACImpl.update_temp (sac_impl.py
lines 218-241): the per-sample expected log probability, the fixed
entropy target, the per-sample temperature target, and the reported
metrics mapping. -/
structure DiscreteTempUpd where
  expct_log_probs : List (List ℚ)
  entropy_target : ℚ
  targ_temp : List (List ℚ)
  metrics : List (String × ℚ)

/-- DiscreteSACImpl.update_temp (sac_impl.py lines 218-241): log_softmax
of the logits, the probability-weighted expected log probability per
sample (summed over actions, keepdim), the fixed entropy target 0.98 *
(-log(1 / action_size)), targ_temp their sum, and the negated mean of
exp(log_temp) * targ_temp as the loss. -/
def update_temp (self : DiscreteSACImplData Obs)
    (batch : TorchMiniBatch Obs) : DiscreteTempUpd :=
  let dists := batch.observations.map self.policy
  let log_probs := dists.map (fun d => self.lsoftmax d.logits)
  let probs := dists.map (fun d => d.probs)
  let expct_log_probs := List.zipWith
    (fun p lp => [(List.zipWith (· * ·) p lp).sum]) probs log_probs
  let entropy_target :=
    (98 : ℚ) / 100 * (-(self.tlog (1 / (self.action_size : ℚ))))
  let targ_temp :=
    expct_log_probs.map (fun r => r.map (fun x => x + entropy_target))
  let loss := -(qmean ((targ_temp.map (fun r =>
    r.map (fun t => self.texp self.log_temp * t))).flatten))
  { expct_log_probs := expct_log_probs
    entropy_target := entropy_target
    targ_temp := targ_temp
    metrics := [("temp_loss", loss), ("temp", self.texp self.log_temp)] }

end DiscreteSACImpl

/-- Gradient-graph tags naming the trainable module groups of the
embedded implementations. -/
inductive Tag : Type where
  | policy
  | qf
  | targ_qf
  | log_temp
deriving DecidableEq

/-- A value produced by the tensor engine together with the tags of the
module groups that the autograd tape recorded while computing it; a value
computed inside torch.no_grad carries no tags. -/
structure Tracked (α : Type) where
  val : α
  tags : List Tag

/-- Modelled from the spec: the observable state of one module group (a
Q-function ensemble, a policy, or the log-temperature Parameter).  A
forward pass may only update the running statistics, and only in training
mode; parameters move only through an optimizer step and gradient buffers
through backward and zero_grad.  Gradient buffers are abstracted to a
dirty bit and running statistics to a log of forward batch sizes. -/
structure ModuleSt where
  params : List (List ℚ)
  gradDirty : Bool
  stats : List ℚ
  training : Bool

/-- Modelled from the spec: optimizer state, abstracted to the number of
steps taken. -/
structure OptimSt where
  steps : Nat

/-- Running-statistics effect of one forward pass: in training mode the
batch size is logged, otherwise the module state is untouched. -/
def fwdStats {Obs : Type} (net : ModuleSt) (obs : List Obs) : ModuleSt :=
  { net with stats :=
      if net.training then (obs.length : ℚ) :: net.stats else net.stats }

/-- Tags recorded for a value computed by the tagged module group: none
when gradient recording is off. -/
def fwdTags (gradOn : Bool) (tag : Tag) : List Tag :=
  if gradOn then [tag] else []

/-- Forward pass of a discrete ensemble module computing
compute_expected_q; ev evaluates one member parameter tensor at one
observation. -/
def fwdDiscreteExpectedQ {Obs : Type} (ev : List ℚ → Obs → List ℚ)
    (gradOn : Bool) (tag : Tag) (net : ModuleSt) (obs : List Obs) :
    ModuleSt × Tracked (List (List ℚ)) :=
  (fwdStats net obs,
   ⟨DiscreteEnsembleQFunctionForwarder.compute_expected_q
      ⟨net.params.map ev⟩ obs, fwdTags gradOn tag⟩)

/-- Forward pass of a discrete ensemble module computing
compute_expected_q with the "min" reduction. -/
def fwdDiscreteExpectedQMin {Obs : Type} (ev : List ℚ → Obs → List ℚ)
    (gradOn : Bool) (tag : Tag) (net : ModuleSt) (obs : List Obs) :
    ModuleSt × Tracked (List (List ℚ)) :=
  (fwdStats net obs,
   ⟨DiscreteEnsembleQFunctionForwarder.compute_expected_q_min
      ⟨net.params.map ev⟩ obs, fwdTags gradOn tag⟩)

/-- Forward pass of a discrete ensemble module computing compute_target
at a per-sample action with the "min" reduction. -/
def fwdDiscreteTargetAt {Obs : Type} (ev : List ℚ → Obs → List ℚ)
    (gradOn : Bool) (tag : Tag) (net : ModuleSt) (obs : List Obs)
    (acts : List Nat) : ModuleSt × Tracked (List ℚ) :=
  (fwdStats net obs,
   ⟨DiscreteEnsembleQFunctionForwarder.compute_target
      ⟨net.params.map ev⟩ obs acts, fwdTags gradOn tag⟩)

/-- Forward pass of a discrete ensemble module computing the no-action
compute_target; tev evaluates the whole ensemble parameters to the target
tensor (rank 2 for scalar critics, rank 3 for distributional ones). -/
def fwdDiscreteTargetAll {Obs : Type}
    (tev : List (List ℚ) → List Obs → DTensor) (gradOn : Bool) (tag : Tag)
    (net : ModuleSt) (obs : List Obs) : ModuleSt × Tracked DTensor :=
  (fwdStats net obs, ⟨tev net.params obs, fwdTags gradOn tag⟩)

/-- Forward pass of a continuous ensemble module computing compute_target
at a per-sample action with the "min" reduction. -/
def fwdContTargetAt {Obs Act : Type} (ev : List ℚ → Obs → Act → ℚ)
    (gradOn : Bool) (tag : Tag) (net : ModuleSt) (obs : List Obs)
    (acts : List Act) : ModuleSt × Tracked (List ℚ) :=
  (fwdStats net obs,
   ⟨ContinuousEnsembleQFunctionForwarder.compute_target
      ⟨net.params.map ev⟩ obs acts, fwdTags gradOn tag⟩)

/-- Forward pass of a categorical policy module: pol evaluates the policy
parameters at one observation to the categorical distribution. -/
def fwdCatPolicy {Obs : Type} (pol : List (List ℚ) → Obs → CatDist)
    (gradOn : Bool) (net : ModuleSt) (obs : List Obs) :
    ModuleSt × Tracked (List CatDist) :=
  (fwdStats net obs, ⟨obs.map (pol net.params), fwdTags gradOn Tag.policy⟩)

/-- Forward pass plus squashed-Gaussian draw of a continuous policy
module: samp evaluates the policy parameters at one observation to the
pair of sampled action and log probability. -/
def fwdNormalPolicySample {Obs Act : Type}
    (samp : List (List ℚ) → Obs → Act × ℚ) (gradOn : Bool) (net : ModuleSt)
    (obs : List Obs) : ModuleSt × Tracked (List (Act × ℚ)) :=
  (fwdStats net obs, ⟨obs.map (samp net.params), fwdTags gradOn Tag.policy⟩)

/-- Forward pass of the log-temperature Parameter module: returns the
stored scalar; a Parameter has no running statistics to update. -/
def fwdLogTemp (gradOn : Bool) (net : ModuleSt) : ModuleSt × Tracked ℚ :=
  (net, ⟨(net.params.headD []).headD 0, fwdTags gradOn Tag.log_temp⟩)

/-- The module bundle of DQNModules (dqn_impl.py lines 17-21) in the
instrumented semantics. -/
structure DQNModulesSt where
  q_funcs : ModuleSt
  targ_q_funcs : ModuleSt
  optim : OptimSt

/-- The module bundle of SACModules (sac_impl.py lines 28-32, with the
policy, Q ensembles and critic optimizer coming from the DDPG base
modules) in the instrumented semantics. -/
structure SACModulesSt where
  policy : ModuleSt
  q_funcs : ModuleSt
  targ_q_funcs : ModuleSt
  log_temp : ModuleSt
  actor_optim : OptimSt
  critic_optim : OptimSt
  temp_optim : OptimSt

/-- The module bundle of DiscreteSACModules (sac_impl.py lines 114-122)
in the instrumented semantics. -/
structure DiscreteSACModulesSt where
  policy : ModuleSt
  q_funcs : ModuleSt
  targ_q_funcs : ModuleSt
  log_temp : ModuleSt
  actor_optim : OptimSt
  critic_optim : OptimSt
  temp_optim : OptimSt

/-- Modelled from the spec: hard_sync copies every parameter tensor of
the source network onto the matching parameter tensor of the destination
network (torch_utility.py is outside the given sources). -/
def hard_sync (dst src : List (List ℚ)) : List (List ℚ) :=
  List.zipWith (fun _d s => s) dst src

namespace DQNImpl

/-- The constructor tail of DQNImpl (dqn_impl.py line 49): hard_sync of
the target ensemble parameters from the live ensemble parameters. -/
def initSt (m : DQNModulesSt) : DQNModulesSt :=
  { m with targ_q_funcs := { m.targ_q_funcs with
      params := hard_sync m.targ_q_funcs.params m.q_funcs.params } }

/-- DQNImpl.update_target (dqn_impl.py lines 96-97): hard_sync of the
target ensemble parameters from the live ensemble parameters. -/
def update_targetSt (s : DQNModulesSt) : DQNModulesSt :=
  { s with targ_q_funcs := { s.targ_q_funcs with
      params := hard_sync s.targ_q_funcs.params s.q_funcs.params } }

/-- DQNImpl.compute_target (dqn_impl.py lines 78-88) in the instrumented
semantics: the whole body runs inside torch.no_grad, so both forward
passes through the target ensemble record no gradient tags. -/
def compute_targetSt {Obs : Type} (ev : List ℚ → Obs → List ℚ)
    (s : DQNModulesSt) (batch : TorchMiniBatch Obs) :
    DQNModulesSt × Tracked (List ℚ) :=
  let p1 := fwdDiscreteExpectedQ ev false Tag.targ_qf s.targ_q_funcs
    batch.next_observations
  let max_action := p1.2.val.map argmaxIdx
  let p2 := fwdDiscreteTargetAt ev false Tag.targ_qf p1.1
    batch.next_observations max_action
  ({ s with targ_q_funcs := p2.1 }, ⟨p2.2.val, p1.2.tags ++ p2.2.tags⟩)

end DQNImpl

namespace DoubleDQNImpl

/-- DoubleDQNImpl.compute_target (dqn_impl.py lines 108-116) in the
instrumented semantics: inside torch.no_grad the live ensemble provides
the arg-max action and the target ensemble the evaluated target. -/
def compute_targetSt {Obs : Type} (ev : List ℚ → Obs → List ℚ)
    (s : DQNModulesSt) (batch : TorchMiniBatch Obs) :
    DQNModulesSt × Tracked (List ℚ) :=
  let p1 := fwdDiscreteExpectedQ ev false Tag.qf s.q_funcs
    batch.next_observations
  let action := p1.2.val.map argmaxIdx
  let p2 := fwdDiscreteTargetAt ev false Tag.targ_qf s.targ_q_funcs
    batch.next_observations action
  ({ s with q_funcs := p1.1, targ_q_funcs := p2.1 },
   ⟨p2.2.val, p1.2.tags ++ p2.2.tags⟩)

end DoubleDQNImpl

namespace SACImpl

/-- SACImpl.compute_target (sac_impl.py lines 95-107) in the instrumented
semantics: the whole body runs inside torch.no_grad, so the policy draw,
the log-temperature read and the target ensemble pass record no gradient
tags. -/
def compute_targetSt {Obs Act : Type}
    (samp : List (List ℚ) → Obs → Act × ℚ) (ev : List ℚ → Obs → Act → ℚ)
    (sexp : ℚ → ℚ) (s : SACModulesSt) (batch : TorchMiniBatch Obs) :
    SACModulesSt × Tracked (List ℚ) :=
  let p1 := fwdNormalPolicySample samp false s.policy
    batch.next_observations
  let pt := fwdLogTemp false s.log_temp
  let entropy := p1.2.val.map (fun al => sexp pt.2.val * al.2)
  let p2 := fwdContTargetAt ev false Tag.targ_qf s.targ_q_funcs
    batch.next_observations (p1.2.val.map (fun al => al.1))
  ({ s with policy := p1.1, log_temp := pt.1, targ_q_funcs := p2.1 },
   ⟨List.zipWith (· - ·) p2.2.val entropy,
    p1.2.tags ++ pt.2.tags ++ p2.2.tags⟩)

/-- loss.backward() on the continuous SAC bundle: marks the gradient
buffers of every module group whose tag the loss carries. -/
def backwardSt (s : SACModulesSt) (tags : List Tag) : SACModulesSt :=
  { s with
    policy := { s.policy with gradDirty :=
      s.policy.gradDirty || tags.contains Tag.policy },
    q_funcs := { s.q_funcs with gradDirty :=
      s.q_funcs.gradDirty || tags.contains Tag.qf },
    targ_q_funcs := { s.targ_q_funcs with gradDirty :=
      s.targ_q_funcs.gradDirty || tags.contains Tag.targ_qf },
    log_temp := { s.log_temp with gradDirty :=
      s.log_temp.gradDirty || tags.contains Tag.log_temp } }

/-- The outcome of SACImpl.update_temp in the instrumented semantics:
the final module bundle, the tracked targ_temp tensor, the tracked loss
and the reported metrics mapping. -/
structure SACTempUpdSt where
  state : SACModulesSt
  targ_temp : Tracked (List ℚ)
  loss : Tracked ℚ
  metrics : List (String × ℚ)

/-- SACImpl.update_temp (sac_impl.py lines 71-93) in the instrumented
semantics: temp_optim.zero_grad() clears the log-temperature gradient
buffer; inside torch.no_grad the policy draw produces log_prob and
targ_temp = log_prob - action_size, so no gradient tags are recorded
for them; the loss -(log_temp().exp() * targ_temp).mean() reads the
log-temperature Parameter with gradient tracking on; loss.backward();
temp_optim.step() applies the optimizer update rule stepFn to the
log-temperature parameter only; the metrics report the loss and the
exponentiated post-step temperature. -/
def update_tempSt {Obs Act : Type}
    (samp : List (List ℚ) → Obs → Act × ℚ) (sexp : ℚ → ℚ)
    (action_size : Nat) (stepFn : List (List ℚ) → List (List ℚ))
    (s : SACModulesSt) (batch : TorchMiniBatch Obs) : SACTempUpdSt :=
  let s1 := { s with log_temp := { s.log_temp with gradDirty := false } }
  let p1 := fwdNormalPolicySample samp false s1.policy batch.observations
  let targ_temp : Tracked (List ℚ) :=
    ⟨p1.2.val.map (fun al => al.2 - (action_size : ℚ)), p1.2.tags⟩
  let pt := fwdLogTemp true s1.log_temp
  let loss : Tracked ℚ :=
    ⟨-(qmean (targ_temp.val.map (fun t => sexp pt.2.val * t))),
     pt.2.tags ++ targ_temp.tags⟩
  let s2 := { s1 with policy := p1.1, log_temp := pt.1 }
  let s3 := backwardSt s2 loss.tags
  let s4 := { s3 with
    log_temp := { s3.log_temp with params := stepFn s3.log_temp.params },
    temp_optim := { steps := s3.temp_optim.steps + 1 } }
  let cur_temp := sexp ((s4.log_temp.params.headD []).headD 0)
  { state := s4
    targ_temp := targ_temp
    loss := loss
    metrics := [("temp_loss", loss.val), ("temp", cur_temp)] }

end SACImpl

namespace DiscreteSACImpl

/-- The constructor tail of DiscreteSACImpl (sac_impl.py line 149):
hard_sync of the target ensemble parameters from the live ensemble
parameters. -/
def initSt (m : DiscreteSACModulesSt) : DiscreteSACModulesSt :=
  { m with targ_q_funcs := { m.targ_q_funcs with
      params := hard_sync m.targ_q_funcs.params m.q_funcs.params } }

/-- DiscreteSACImpl.update_target (sac_impl.py lines 251-252). -/
def update_targetSt (s : DiscreteSACModulesSt) : DiscreteSACModulesSt :=
  { s with targ_q_funcs := { s.targ_q_funcs with
      params := hard_sync s.targ_q_funcs.params s.q_funcs.params } }

/-- DiscreteSACImpl.compute_target (sac_impl.py lines 163-177) in the
instrumented semantics: the whole body runs inside torch.no_grad. -/
def compute_targetSt {Obs : Type} (pol : List (List ℚ) → Obs → CatDist)
    (tev : List (List ℚ) → List Obs → DTensor) (sexp : ℚ → ℚ)
    (s : DiscreteSACModulesSt) (batch : TorchMiniBatch Obs) :
    DiscreteSACModulesSt × Tracked DTensor :=
  let p1 := fwdCatPolicy pol false s.policy batch.next_observations
  let pt := fwdLogTemp false s.log_temp
  let probs := DTensor.t2 (p1.2.val.map (fun d => d.probs))
  let entropy := DTensor.t2 (p1.2.val.map (fun d =>
    d.logits.map (fun l => sexp pt.2.val * l)))
  let p2 := fwdDiscreteTargetAll tev false Tag.targ_qf s.targ_q_funcs
    batch.next_observations
  let target := p2.2.val
  let value :=
    if target.dim = 3 then
      DTensor.sumDim1 false
        (DTensor.mul probs.unsqueezeLast
          (DTensor.sub target entropy.unsqueezeLast))
    else
      DTensor.sumDim1 true (DTensor.mul probs (DTensor.sub target entropy))
  ({ s with policy := p1.1, log_temp := pt.1, targ_q_funcs := p2.1 },
   ⟨value, p1.2.tags ++ pt.2.tags ++ p2.2.tags⟩)

/-- DiscreteSACImpl.compute_actor_loss (sac_impl.py lines 207-216) in the
instrumented semantics: the "min" expected Q of the live ensemble is
computed inside torch.no_grad (no gradient tag), while the policy forward
and the log-temperature read are tracked. -/
def compute_actor_lossSt {Obs : Type}
    (pol : List (List ℚ) → Obs → CatDist) (ev : List ℚ → Obs → List ℚ)
    (sexp : ℚ → ℚ) (s : DiscreteSACModulesSt)
    (batch : TorchMiniBatch Obs) : DiscreteSACModulesSt × Tracked ℚ :=
  let pq := fwdDiscreteExpectedQMin ev false Tag.qf s.q_funcs
    batch.observations
  let pd := fwdCatPolicy pol true s.policy batch.observations
  let pt := fwdLogTemp true s.log_temp
  let loss := qmean (List.zipWith
    (fun (d : CatDist) qrow =>
      (List.zipWith (· * ·) d.probs (List.zipWith (· - ·)
        (d.logits.map (fun l => sexp pt.2.val * l)) qrow)).sum)
    pd.2.val pq.2.val)
  ({ s with q_funcs := pq.1, policy := pd.1, log_temp := pt.1 },
   ⟨loss, pq.2.tags ++ pd.2.tags ++ pt.2.tags⟩)

/-- loss.backward(): marks the gradient buffers of every module group
whose tag the loss carries. -/
def backwardSt (s : DiscreteSACModulesSt) (tags : List Tag) :
    DiscreteSACModulesSt :=
  { s with
    policy := { s.policy with gradDirty :=
      s.policy.gradDirty || tags.contains Tag.policy },
    q_funcs := { s.q_funcs with gradDirty :=
      s.q_funcs.gradDirty || tags.contains Tag.qf },
    targ_q_funcs := { s.targ_q_funcs with gradDirty :=
      s.targ_q_funcs.gradDirty || tags.contains Tag.targ_qf },
    log_temp := { s.log_temp with gradDirty :=
      s.log_temp.gradDirty || tags.contains Tag.log_temp } }

/-- DiscreteSACImpl.update_actor (sac_impl.py lines 193-205) in the
instrumented semantics: q_funcs.eval(), actor_optim.zero_grad() (which
clears the gradient buffers of the policy, the only group the actor
optimizer owns), the actor loss, loss.backward(), and actor_optim.step(),
which applies the optimizer update rule stepFn to the policy parameters
only and advances the actor optimizer. -/
def update_actorSt {Obs : Type} (pol : List (List ℚ) → Obs → CatDist)
    (ev : List ℚ → Obs → List ℚ) (sexp : ℚ → ℚ)
    (stepFn : List (List ℚ) → List (List ℚ)) (s : DiscreteSACModulesSt)
    (batch : TorchMiniBatch Obs) : DiscreteSACModulesSt × ℚ :=
  let s1 := { s with q_funcs := { s.q_funcs with training := false } }
  let s2 := { s1 with policy := { s1.policy with gradDirty := false } }
  let r := compute_actor_lossSt pol ev sexp s2 batch
  let s3 := backwardSt r.1 r.2.tags
  let s4 := { s3 with
    policy := { s3.policy with params := stepFn s3.policy.params },
    actor_optim := { steps := s3.actor_optim.steps + 1 } }
  (s4, r.2.val)

end DiscreteSACImpl

/-- The claim-side value of one sample of the discrete SAC target for a
rank-2 target tensor: the sum over actions of prob * (target -
exp(log_temp) * log_prob), kept as a size-1 axis. -/
def specDiscreteTargetRow2 (e : ℚ) (d : CatDist) (trow : List ℚ) :
    List ℚ :=
  [((d.probs.zip (d.logits.zip trow)).map
      (fun x => x.1 * (x.2.2 - e * x.2.1))).sum]

/-- The claim-side value of one sample of the discrete SAC target for a
rank-3 target tensor: entry k is the sum over actions of prob * (target
entry at k - exp(log_temp) * log_prob), with no kept action axis. -/
def specDiscreteTargetRow3 (e : ℚ) (K : Nat) (d : CatDist)
    (mat : List (List ℚ)) : List ℚ :=
  (List.range K).map (fun k =>
    ((d.probs.zip (d.logits.zip mat)).map
      (fun x => x.1 * (x.2.2.getD k 0 - e * x.2.1))).sum)

/-- A concrete module group state used by the claim witnesses. -/
def moduleW (p : List (List ℚ)) : ModuleSt :=
  { params := p, gradDirty := false, stats := [], training := true }

/-- A concrete DQN module bundle with drifted target parameters. -/
def dqnStW : DQNModulesSt :=
  { q_funcs := moduleW [[1, 2], [3]]
    targ_q_funcs := moduleW [[7, 8], [9]]
    optim := { steps := 5 } }

/-- A concrete discrete SAC module bundle with drifted target
parameters. -/
def dsacStW : DiscreteSACModulesSt :=
  { policy := moduleW [[0]]
    q_funcs := moduleW [[1, 2], [3]]
    targ_q_funcs := moduleW [[5, 5], [4]]
    log_temp := moduleW [[1]]
    actor_optim := { steps := 1 }
    critic_optim := { steps := 2 }
    temp_optim := { steps := 3 } }

/-- A concrete continuous SAC implementation whose exponential model is a
square, hence nonnegative everywhere. -/
def sacSelfW : SACImplData Unit Unit :=
  { policy_sample := fun _ => ((), -2)
    q_func_forwarder := { members := [fun _ _ => 1, fun _ _ => 3] }
    targ_q_func_forwarder := { members := [fun _ _ => 2] }
    log_temp := 3
    texp := fun q => q * q
    action_size := 2 }

/-- A concrete continuous SAC module bundle used by the claim
witnesses. -/
def sacStW : SACModulesSt :=
  { policy := { params := [[1]], gradDirty := true, stats := [], training := true }
    q_funcs := { params := [[2, 2]], gradDirty := false, stats := [], training := true }
    targ_q_funcs := { params := [[2, 2]], gradDirty := false, stats := [], training := false }
    log_temp := { params := [[3]], gradDirty := true, stats := [], training := true }
    actor_optim := { steps := 0 }
    critic_optim := { steps := 0 }
    temp_optim := { steps := 7 } }

/-- A concrete two-sample mini-batch over trivial observations. -/
def sacBatchW : TorchMiniBatch Unit :=
  { observations := [(), ()]
    next_observations := [(), ()]
    actions := [0, 1]
    rewards := [1, 0]
    terminals := [0, 1]
    intervals := [1, 2] }

/-- A concrete discrete SAC implementation whose target forwarder
produces a rank-2 tensor (scalar critics, two actions). -/
def dsacSelfW2 : DiscreteSACImplData Unit :=
  { policy := fun _ => { probs := [1 / 2, 1 / 2], logits := [-1, -1] }
    q_func_forwarder := { members := [fun _ => [0, 1]] }
    targ_compute_target := fun obs =>
      DTensor.t2 (obs.map (fun _ => [2, 4]))
    log_temp := 0
    texp := fun x => x + 1
    tlog := fun x => x
    lsoftmax := fun r => r
    gamma := 99 / 100
    action_size := 2 }

/-- A concrete discrete SAC implementation whose target forwarder
produces a rank-3 tensor (distributional critics, two quantiles). -/
def dsacSelfW3 : DiscreteSACImplData Unit :=
  { dsacSelfW2 with
    targ_compute_target := fun obs =>
      DTensor.t3 (obs.map (fun _ => [[2, 3], [4, 5]])) }

/-- A concrete one-sample mini-batch over trivial observations. -/
def dsacBatchW : TorchMiniBatch Unit :=
  { observations := [()]
    next_observations := [()]
    actions := [0]
    rewards := [1]
    terminals := [0]
    intervals := [1] }

lemma tdTargets_pow (gamma : ℚ) (rs ts ds : List ℚ) (ns : List Nat) :
    tdTargets rs (ns.map (fun n => gamma ^ n)) ts ds =
      specTDTargets gamma rs ts ds ns := by
  induction rs generalizing ts ds ns with
  | nil => cases ns <;> simp [tdTargets, specTDTargets]
  | cons r rs ih =>
    cases ns with
    | nil => simp [tdTargets, specTDTargets]
    | cons n ns =>
      cases ts with
      | nil => simp [tdTargets, specTDTargets]
      | cons t ts =>
        cases ds with
        | nil => simp [tdTargets, specTDTargets]
        | cons d ds =>
          simp [tdTargets, specTDTargets, tdTarget, ih]

/-- Unfolding lemma: DQNImpl.compute_loss realizes the
temporal-difference target reward + gamma ^ interval * target * (1 -
terminal); the DQN half of the claim below. -/
lemma dqn_compute_loss_eq_spec {Obs : Type} (self : DQNImplData Obs)
    (batch : TorchMiniBatch Obs) (q_tpn : List ℚ) :
    DQNImpl.compute_loss self batch q_tpn =
      specCriticLoss self.q_func_forwarder self.gamma batch q_tpn := by
  unfold DQNImpl.compute_loss specCriticLoss
  unfold DiscreteEnsembleQFunctionForwarder.compute_error
  rw [tdTargets_pow]

lemma dsac_compute_critic_loss_eq_spec {Obs : Type}
    (self : DiscreteSACImplData Obs) (batch : TorchMiniBatch Obs)
    (q_tpn : List ℚ) :
    DiscreteSACImpl.compute_critic_loss self batch q_tpn =
      specCriticLoss self.q_func_forwarder self.gamma batch q_tpn := by
  unfold DiscreteSACImpl.compute_critic_loss specCriticLoss
  unfold DiscreteEnsembleQFunctionForwarder.compute_error
  rw [tdTargets_pow]

/-- C5: for every mini-batch, DQNImpl.compute_loss and
DiscreteSACImpl.compute_critic_loss pass compute_error the discount
factor raised element-wise to the batch intervals, so the realized
temporal-difference target per sample is reward + gamma ^ interval *
target * (1 - terminal). -/
theorem c5_gamma_interval_discount (Obs : Type) (dqn : DQNImplData Obs)
    (dsac : DiscreteSACImplData Obs) (b1 b2 : TorchMiniBatch Obs)
    (q1 q2 : List ℚ) :
    DQNImpl.compute_loss dqn b1 q1 =
      specCriticLoss dqn.q_func_forwarder dqn.gamma b1 q1 ∧
    DiscreteSACImpl.compute_critic_loss dsac b2 q2 =
      specCriticLoss dsac.q_func_forwarder dsac.gamma b2 q2 :=
  ⟨dqn_compute_loss_eq_spec dqn b1 q1,
   dsac_compute_critic_loss_eq_spec dsac b2 q2⟩

/-- C4: the temperature target constant used by
DiscreteSACImpl.update_temp is the same for any two mini-batches given
the same implementation data, equals 0.98 * (-log(1 / action_size)), and
the batch content enters targ_temp only through the expected log
probabilities, shifted by exactly that constant. -/
theorem c4_fixed_entropy_target (Obs : Type)
    (self : DiscreteSACImplData Obs) (b1 b2 : TorchMiniBatch Obs) :
    (DiscreteSACImpl.update_temp self b1).entropy_target =
      (DiscreteSACImpl.update_temp self b2).entropy_target ∧
    (DiscreteSACImpl.update_temp self b1).entropy_target =
      (98 : ℚ) / 100 * (-(self.tlog (1 / (self.action_size : ℚ)))) ∧
    (DiscreteSACImpl.update_temp self b1).targ_temp =
      (DiscreteSACImpl.update_temp self b1).expct_log_probs.map
        (fun r => r.map (fun x =>
          x + (98 : ℚ) / 100 * (-(self.tlog (1 / (self.action_size : ℚ)))))) :=
  ⟨rfl, rfl, rfl⟩

/-- C6: for every observation batch, SACImpl.compute_actor_loss equals
the mean over the batch of exp(log_temp) * log_prob - Q, where the action
and log_prob are the squashed-Gaussian draw at the observation and Q is
the live ensemble "min" expected Q at the drawn action. -/
theorem c6_sac_actor_loss (Obs Act : Type) (self : SACImplData Obs Act)
    (batch : TorchMiniBatch Obs) :
    SACImpl.compute_actor_loss self batch =
      qmean (batch.observations.map (fun o =>
        self.texp self.log_temp * (self.policy_sample o).2 -
          minD (self.q_func_forwarder.members.map
            (fun m => m o (self.policy_sample o).1)))) := by
  unfold SACImpl.compute_actor_loss
  unfold ContinuousEnsembleQFunctionForwarder.compute_expected_q
  simp only [List.map_map, List.zipWith_map_right, List.zipWith_map_left,
    List.zipWith_same]
  rfl

/-- C7: for every mini-batch, the metrics mapping returned by
SACImpl.update_temp binds temp_loss to the negated mean of exp(log_temp)
* (log_prob - action_size) and temp to exp(log_temp); when the
exponential model is nonnegative everywhere, the reported temperature is
nonnegative; and in the instrumented semantics the log probability and
targ_temp are drawn inside torch.no_grad, so targ_temp carries no
gradient tags and the loss is tracked through the log-temperature
Parameter alone. -/
theorem c7_sac_update_temp (Obs Act : Type) (self : SACImplData Obs Act)
    (batch : TorchMiniBatch Obs)
    (samp : List (List ℚ) → Obs → Act × ℚ) (sexp : ℚ → ℚ)
    (stepFn : List (List ℚ) → List (List ℚ)) (st : SACModulesSt)
    (hexp : ∀ x, 0 ≤ self.texp x) :
    (SACImpl.update_temp self batch).lookup "temp_loss" =
      some (-(qmean (batch.observations.map (fun o =>
        self.texp self.log_temp *
          ((self.policy_sample o).2 - (self.action_size : ℚ)))))) ∧
    (SACImpl.update_temp self batch).lookup "temp" =
      some (self.texp self.log_temp) ∧
    (∀ t, (SACImpl.update_temp self batch).lookup "temp" = some t →
      0 ≤ t) ∧
    (SACImpl.update_tempSt samp sexp self.action_size stepFn st
      batch).targ_temp.tags = [] ∧
    (SACImpl.update_tempSt samp sexp self.action_size stepFn st
      batch).loss.tags = [Tag.log_temp] := by
  refine ⟨?_, ?_, ?_, rfl, rfl⟩
  · unfold SACImpl.update_temp
    simp only [List.map_map]
    rfl
  · rfl
  · intro t ht
    have h2 : t = self.texp self.log_temp := by
      unfold SACImpl.update_temp at ht
      simp [List.lookup] at ht
      exact ht.symm
    rw [h2]
    exact hexp self.log_temp

/-- C1: for every mini-batch, DQNImpl.compute_target evaluates, per
sample, the target ensemble "min" target at the arg-max action of the
target ensemble expected Q, while DoubleDQNImpl.compute_target evaluates
the target ensemble "min" target at the arg-max action of the live
ensemble expected Q: only the arg-max source differs between the two
variants. -/
theorem c1_target_action_selection (Obs : Type) (self : DQNImplData Obs)
    (batch : TorchMiniBatch Obs) :
    DQNImpl.compute_target self batch =
      batch.next_observations.map (fun o =>
        targetMinAt self.targ_q_func_forwarder o
          (argmaxIdx (expectedQRow self.targ_q_func_forwarder o))) ∧
    DoubleDQNImpl.compute_target self batch =
      batch.next_observations.map (fun o =>
        targetMinAt self.targ_q_func_forwarder o
          (argmaxIdx (expectedQRow self.q_func_forwarder o))) := by
  constructor
  · unfold DQNImpl.compute_target
    unfold DiscreteEnsembleQFunctionForwarder.compute_target
    unfold DiscreteEnsembleQFunctionForwarder.compute_expected_q
    simp only [List.map_map, List.zipWith_map_right, List.zipWith_same]
    rfl
  · unfold DoubleDQNImpl.compute_target DQNImpl.inner_predict_best_action
    unfold DiscreteEnsembleQFunctionForwarder.compute_target
    unfold DiscreteEnsembleQFunctionForwarder.compute_expected_q
    simp only [List.map_map, List.zipWith_map_right, List.zipWith_same]
    rfl

/-- C8: for every input batch of observations, DQNImpl.inner_sample_action
returns exactly DQNImpl.inner_predict_best_action, which is the per-sample
arg-max of the live ensemble expected Q. -/
theorem c8_sample_equals_best_action (Obs : Type) (self : DQNImplData Obs)
    (x : List Obs) :
    DQNImpl.inner_sample_action self x =
      DQNImpl.inner_predict_best_action self x ∧
    DQNImpl.inner_sample_action self x =
      x.map (fun o => argmaxIdx (expectedQRow self.q_func_forwarder o)) := by
  refine ⟨rfl, ?_⟩
  unfold DQNImpl.inner_sample_action DQNImpl.inner_predict_best_action
  unfold DiscreteEnsembleQFunctionForwarder.compute_expected_q
  simp only [List.map_map]
  rfl

lemma bcast_singleton_left (f : ℚ → ℚ → ℚ) (c : ℚ) (ys : List ℚ) :
    bcast f [c] ys = ys.map (f c) := by
  rcases ys with _ | ⟨y, _ | ⟨z, l⟩⟩ <;> simp [bcast]

lemma bcast_singleton_right (f : ℚ → ℚ → ℚ) (xs : List ℚ) (c : ℚ) :
    bcast f xs [c] = xs.map (fun x => f x c) := by
  rcases xs with _ | ⟨x, _ | ⟨x2, l⟩⟩ <;> simp [bcast]

lemma bcast_eq_zipWith (f : ℚ → ℚ → ℚ) (xs ys : List ℚ)
    (h : xs.length = ys.length) : bcast f xs ys = List.zipWith f xs ys := by
  rcases xs with _ | ⟨x, _ | ⟨x2, l⟩⟩ <;>
    rcases ys with _ | ⟨y, _ | ⟨y2, l2⟩⟩ <;>
    simp_all [bcast]

lemma map_range_getD (f : ℚ → ℚ) (r : List ℚ) :
    (List.range r.length).map (fun k => f (r.getD k 0)) = r.map f := by
  induction r with
  | nil => simp
  | cons a r ih =>
    rw [List.length_cons, List.range_succ_eq_map]
    simp only [List.map_cons, List.map_map, Function.comp_def,
      Nat.succ_eq_add_one, List.getD_cons_zero, List.getD_cons_succ]
    rw [ih]

lemma zipWith_add_map_range (f : ℚ → ℚ) (r : List ℚ) :
    ∀ g : Nat → ℚ,
      List.zipWith (· + ·) (r.map f) ((List.range r.length).map g) =
        (List.range r.length).map (fun k => f (r.getD k 0) + g k) := by
  induction r with
  | nil => intro g; simp
  | cons a r ih =>
    intro g
    rw [List.length_cons, List.range_succ_eq_map]
    simp only [List.map_cons, List.map_map, Function.comp_def,
      Nat.succ_eq_add_one, List.zipWith_cons_cons, List.getD_cons_zero,
      List.getD_cons_succ]
    rw [ih (fun k => g (k + 1))]

lemma sumCols_weighted (e : ℚ) (K : Nat) :
    ∀ l : List (ℚ × ℚ × List ℚ), l ≠ [] →
      (∀ x ∈ l, x.2.2.length = K) →
      sumCols (l.map (fun x => x.2.2.map (fun t => x.1 * (t - e * x.2.1))))
        = (List.range K).map (fun k =>
            (l.map (fun x => x.1 * (x.2.2.getD k 0 - e * x.2.1))).sum) := by
  intro l
  induction l with
  | nil => intro h; exact absurd rfl h
  | cons x l ih =>
    intro _ hlen
    have hx : x.2.2.length = K := hlen x (by simp)
    cases l with
    | nil =>
      simp only [List.map_cons, List.map_nil, sumCols, List.sum_cons,
        List.sum_nil, add_zero]
      rw [← hx, map_range_getD (fun t => x.1 * (t - e * x.2.1)) x.2.2]
    | cons y l =>
      have hstep :
          sumCols ((x.2.2.map (fun t => x.1 * (t - e * x.2.1))) ::
            (y.2.2.map (fun t => y.1 * (t - e * y.2.1))) ::
            (l.map (fun z => z.2.2.map (fun t => z.1 * (t - e * z.2.1)))))
          = List.zipWith (· + ·)
              (x.2.2.map (fun t => x.1 * (t - e * x.2.1)))
              (sumCols ((y.2.2.map (fun t => y.1 * (t - e * y.2.1))) ::
                (l.map (fun z =>
                  z.2.2.map (fun t => z.1 * (t - e * z.2.1)))))) := by
        simp [sumCols]
      simp only [List.map_cons]
      rw [hstep]
      have ihy := ih (by simp)
        (fun z hz => hlen z (List.mem_cons_of_mem x hz))
      simp only [List.map_cons] at ihy
      rw [ihy, ← hx,
        zipWith_add_map_range (fun t => x.1 * (t - e * x.2.1)) x.2.2]
      simp [List.sum_cons]

lemma row2_eq (e : ℚ) :
    ∀ ps ls trow : List ℚ,
      List.zipWith (· * ·) ps
        (List.zipWith (· - ·) trow (ls.map (fun l => e * l))) =
        (ps.zip (ls.zip trow)).map (fun x => x.1 * (x.2.2 - e * x.2.1)) := by
  intro ps
  induction ps with
  | nil => intro ls trow; simp
  | cons p ps ih =>
    intro ls trow
    cases ls with
    | nil => simp
    | cons l ls =>
      cases trow with
      | nil => simp
      | cons t trow => simp [ih ls trow]

lemma fuse3 (e : ℚ) :
    ∀ (ps ls : List ℚ) (mat : List (List ℚ)),
      List.zipWith (fun p srow => srow.map (fun s => p * s)) ps
        (List.zipWith (fun trow x => trow.map (fun t => t - x)) mat
          (ls.map (fun l => e * l))) =
        (ps.zip (ls.zip mat)).map
          (fun x => x.2.2.map (fun t => x.1 * (t - e * x.2.1))) := by
  intro ps
  induction ps with
  | nil => intro ls mat; simp
  | cons p ps ih =>
    intro ls mat
    cases ls with
    | nil => simp
    | cons l ls =>
      cases mat with
      | nil => simp
      | cons m mat =>
        simp only [List.map_cons, List.zipWith_cons_cons, List.zip_cons_cons]
        rw [ih ls mat, List.map_map]
        rfl

lemma dsac_t2_rows {Obs : Type} (e : ℚ) (pol : Obs → CatDist) (A : Nat) :
    ∀ (obs : List Obs) (tgt : List (List ℚ)),
      (∀ o ∈ obs, (pol o).probs.length = A ∧ (pol o).logits.length = A) →
      (∀ r ∈ tgt, r.length = A) →
      (List.zipWith (bcast (· * ·)) (obs.map (fun o => (pol o).probs))
        (List.zipWith (bcast (· - ·)) tgt
          (obs.map (fun o =>
            (pol o).logits.map (fun l => e * l))))).map (fun r => [r.sum])
        = List.zipWith (fun o trow => specDiscreteTargetRow2 e (pol o) trow)
            obs tgt := by
  intro obs
  induction obs with
  | nil => intro tgt _ _; simp
  | cons o os ih =>
    intro tgt hobs htgt
    cases tgt with
    | nil => simp
    | cons trow tgts =>
      have ho := hobs o (by simp)
      have ht := htgt trow (by simp)
      simp only [List.map_cons, List.zipWith_cons_cons]
      rw [bcast_eq_zipWith (· - ·) trow _
        (by simp [ht, ho.2]),
        bcast_eq_zipWith (· * ·) _ _
        (by simp [ho.1, List.length_zipWith, ht, ho.2]),
        row2_eq]
      rw [ih tgts (fun z hz => hobs z (List.mem_cons_of_mem o hz))
        (fun z hz => htgt z (List.mem_cons_of_mem trow hz))]
      rfl

lemma dsac_t3_row (e : ℚ) (d : CatDist) (mat : List (List ℚ))
    (A K : Nat) (hA : 0 < A) (hp : d.probs.length = A)
    (hl : d.logits.length = A) (hm : mat.length = A)
    (hr : ∀ r ∈ mat, r.length = K) :
    sumCols (List.zipWith (bcast (· * ·)) (d.probs.map (fun x => [x]))
      (List.zipWith (bcast (· - ·)) mat
        ((d.logits.map (fun l => e * l)).map (fun x => [x]))))
      = specDiscreteTargetRow3 e K d mat := by
  rw [List.zipWith_map_right, List.zipWith_map_left]
  simp only [bcast_singleton_right, bcast_singleton_left]
  rw [fuse3 e d.probs d.logits mat]
  have hne : d.probs.zip (d.logits.zip mat) ≠ [] := by
    have hlen : (d.probs.zip (d.logits.zip mat)).length = A := by
      simp [List.length_zip, hp, hl, hm]
    intro hc
    rw [hc] at hlen
    simp at hlen
    omega
  have hK : ∀ x ∈ d.probs.zip (d.logits.zip mat), x.2.2.length = K := by
    intro x hx
    have h2 : x.2 ∈ d.logits.zip mat := (List.of_mem_zip hx).2
    exact hr x.2.2 (List.of_mem_zip h2).2
  rw [sumCols_weighted e K _ hne hK]
  rfl

lemma dsac_t3_rows {Obs : Type} (e : ℚ) (pol : Obs → CatDist) (A K : Nat)
    (hA : 0 < A) :
    ∀ (obs : List Obs) (tgt : List (List (List ℚ))),
      (∀ o ∈ obs, (pol o).probs.length = A ∧ (pol o).logits.length = A) →
      (∀ mat ∈ tgt, mat.length = A ∧ ∀ r ∈ mat, r.length = K) →
      (List.zipWith (List.zipWith (bcast (· * ·)))
        ((obs.map (fun o => (pol o).probs)).map
          (fun row => row.map (fun x => [x])))
        (List.zipWith (List.zipWith (bcast (· - ·))) tgt
          ((obs.map (fun o => (pol o).logits.map (fun l => e * l))).map
            (fun row => row.map (fun x => [x]))))).map sumCols
        = List.zipWith
            (fun o mat => specDiscreteTargetRow3 e K (pol o) mat) obs tgt := by
  intro obs
  induction obs with
  | nil => intro tgt _ _; simp
  | cons o os ih =>
    intro tgt hobs htgt
    cases tgt with
    | nil => simp
    | cons mat mats =>
      have ho := hobs o (by simp)
      have hm := htgt mat (by simp)
      simp only [List.map_cons, List.zipWith_cons_cons]
      rw [dsac_t3_row e (pol o) mat A K hA ho.1 ho.2 hm.1 hm.2,
        ih mats (fun z hz => hobs z (List.mem_cons_of_mem o hz))
          (fun z hz => htgt z (List.mem_cons_of_mem mat hz))]

/-- C3: for every mini-batch, DiscreteSACImpl.compute_target returns, per
sample, the sum over actions of prob * (target - exp(log_temp) *
log_prob); for a rank-3 target the entropy and probability tensors gain a
trailing axis and the sum over the action axis keeps no dim, for a rank-2
target the summed axis is kept, so the result has rank 2 in both
cases. -/
theorem c3_discrete_sac_target_shape (Obs : Type)
    (self : DiscreteSACImplData Obs) (batch : TorchMiniBatch Obs)
    (A : Nat) (hA : 0 < A)
    (hp : ∀ o ∈ batch.next_observations,
      (self.policy o).probs.length = A ∧ (self.policy o).logits.length = A) :
    (∀ tgt,
      self.targ_compute_target batch.next_observations = DTensor.t2 tgt →
      (∀ r ∈ tgt, r.length = A) →
      DiscreteSACImpl.compute_target self batch =
        DTensor.t2 (List.zipWith
          (fun o trow => specDiscreteTargetRow2
            (self.texp self.log_temp) (self.policy o) trow)
          batch.next_observations tgt) ∧
      (DiscreteSACImpl.compute_target self batch).dim = 2) ∧
    (∀ K tgt,
      self.targ_compute_target batch.next_observations = DTensor.t3 tgt →
      (∀ mat ∈ tgt, mat.length = A ∧ ∀ r ∈ mat, r.length = K) →
      DiscreteSACImpl.compute_target self batch =
        DTensor.t2 (List.zipWith
          (fun o mat => specDiscreteTargetRow3
            (self.texp self.log_temp) K (self.policy o) mat)
          batch.next_observations tgt) ∧
      (DiscreteSACImpl.compute_target self batch).dim = 2) := by
  constructor
  · intro tgt htgt hrows
    have heq : DiscreteSACImpl.compute_target self batch =
        DTensor.t2 (List.zipWith
          (fun o trow => specDiscreteTargetRow2
            (self.texp self.log_temp) (self.policy o) trow)
          batch.next_observations tgt) := by
      unfold DiscreteSACImpl.compute_target
      rw [htgt]
      simp only [DTensor.dim, List.map_map]
      rw [if_neg (by decide)]
      simp only [DTensor.mul, DTensor.sub, DTensor.ewise, DTensor.sumDim1]
      exact congrArg DTensor.t2
        (dsac_t2_rows (self.texp self.log_temp) self.policy A
          batch.next_observations tgt hp hrows)
    exact ⟨heq, by rw [heq]; rfl⟩
  · intro K tgt htgt hrows
    have heq : DiscreteSACImpl.compute_target self batch =
        DTensor.t2 (List.zipWith
          (fun o mat => specDiscreteTargetRow3
            (self.texp self.log_temp) K (self.policy o) mat)
          batch.next_observations tgt) := by
      unfold DiscreteSACImpl.compute_target
      rw [htgt]
      simp only [DTensor.dim, List.map_map]
      rw [if_pos (by decide)]
      simp only [DTensor.unsqueezeLast, DTensor.mul, DTensor.sub,
        DTensor.ewise, DTensor.sumDim1]
      exact congrArg DTensor.t2
        (dsac_t3_rows (self.texp self.log_temp) self.policy A K hA
          batch.next_observations tgt hp hrows)
    exact ⟨heq, by rw [heq]; rfl⟩

lemma zipWith_right_proj {α : Type} :
    ∀ dst src : List α, dst.length = src.length →
      List.zipWith (fun _d s => s) dst src = src := by
  intro dst
  induction dst with
  | nil =>
    intro src h
    cases src with
    | nil => rfl
    | cons s ss => exact absurd h (by simp)
  | cons d ds ih =>
    intro src h
    cases src with
    | nil => exact absurd h (by simp)
    | cons s ss =>
      simp only [List.zipWith_cons_cons]
      rw [ih ss (by simpa using h)]

lemma hard_sync_eq (dst src : List (List ℚ))
    (h : dst.length = src.length) : hard_sync dst src = src :=
  zipWith_right_proj dst src h

/-- C2: for DQNImpl and DiscreteSACImpl, right after the constructor runs
hard_sync the target ensemble parameters equal the live ensemble
parameters, and after any update_target call they equal the live
parameters again whatever the state drifted to in between (the target
network is a structurally identical copy, so the parameter lists have
equal length). -/
theorem c2_hard_sync_invariant :
    (∀ m : DQNModulesSt,
      m.targ_q_funcs.params.length = m.q_funcs.params.length →
      (DQNImpl.initSt m).targ_q_funcs.params =
        (DQNImpl.initSt m).q_funcs.params) ∧
    (∀ s : DQNModulesSt,
      s.targ_q_funcs.params.length = s.q_funcs.params.length →
      (DQNImpl.update_targetSt s).targ_q_funcs.params =
        (DQNImpl.update_targetSt s).q_funcs.params) ∧
    (∀ m : DiscreteSACModulesSt,
      m.targ_q_funcs.params.length = m.q_funcs.params.length →
      (DiscreteSACImpl.initSt m).targ_q_funcs.params =
        (DiscreteSACImpl.initSt m).q_funcs.params) ∧
    (∀ s : DiscreteSACModulesSt,
      s.targ_q_funcs.params.length = s.q_funcs.params.length →
      (DiscreteSACImpl.update_targetSt s).targ_q_funcs.params =
        (DiscreteSACImpl.update_targetSt s).q_funcs.params) := by
  refine ⟨?_, ?_, ?_, ?_⟩ <;>
    intro m h <;> exact hard_sync_eq _ _ h

/-- C9: every compute_target implementation, run in the instrumented
semantics, records no gradient tags for its result (the whole body sits
inside torch.no_grad) and leaves every parameter tensor, every gradient
buffer and every optimizer state exactly as it found them: only the
running statistics of the modules it forwards through may change. -/
theorem c9_compute_target_pure_read (Obs Act : Type)
    (ev : List ℚ → Obs → List ℚ) (sq sq2 : DQNModulesSt)
    (b b2 : TorchMiniBatch Obs)
    (samp : List (List ℚ) → Obs → Act × ℚ)
    (evc : List ℚ → Obs → Act → ℚ) (sexp : ℚ → ℚ) (ss : SACModulesSt)
    (b3 : TorchMiniBatch Obs)
    (pol : List (List ℚ) → Obs → CatDist)
    (tev : List (List ℚ) → List Obs → DTensor)
    (sd : DiscreteSACModulesSt) (b4 : TorchMiniBatch Obs) :
    ((DQNImpl.compute_targetSt ev sq b).1.q_funcs.params =
        sq.q_funcs.params ∧
      (DQNImpl.compute_targetSt ev sq b).1.targ_q_funcs.params =
        sq.targ_q_funcs.params ∧
      (DQNImpl.compute_targetSt ev sq b).1.q_funcs.gradDirty =
        sq.q_funcs.gradDirty ∧
      (DQNImpl.compute_targetSt ev sq b).1.targ_q_funcs.gradDirty =
        sq.targ_q_funcs.gradDirty ∧
      (DQNImpl.compute_targetSt ev sq b).1.optim = sq.optim ∧
      (DQNImpl.compute_targetSt ev sq b).2.tags = []) ∧
    ((DoubleDQNImpl.compute_targetSt ev sq2 b2).1.q_funcs.params =
        sq2.q_funcs.params ∧
      (DoubleDQNImpl.compute_targetSt ev sq2 b2).1.targ_q_funcs.params =
        sq2.targ_q_funcs.params ∧
      (DoubleDQNImpl.compute_targetSt ev sq2 b2).1.q_funcs.gradDirty =
        sq2.q_funcs.gradDirty ∧
      (DoubleDQNImpl.compute_targetSt ev sq2 b2).1.targ_q_funcs.gradDirty =
        sq2.targ_q_funcs.gradDirty ∧
      (DoubleDQNImpl.compute_targetSt ev sq2 b2).1.optim = sq2.optim ∧
      (DoubleDQNImpl.compute_targetSt ev sq2 b2).2.tags = []) ∧
    ((SACImpl.compute_targetSt samp evc sexp ss b3).1.policy.params =
        ss.policy.params ∧
      (SACImpl.compute_targetSt samp evc sexp ss b3).1.q_funcs.params =
        ss.q_funcs.params ∧
      (SACImpl.compute_targetSt samp evc sexp ss b3).1.targ_q_funcs.params
        = ss.targ_q_funcs.params ∧
      (SACImpl.compute_targetSt samp evc sexp ss b3).1.log_temp.params =
        ss.log_temp.params ∧
      (SACImpl.compute_targetSt samp evc sexp ss b3).1.actor_optim =
        ss.actor_optim ∧
      (SACImpl.compute_targetSt samp evc sexp ss b3).1.critic_optim =
        ss.critic_optim ∧
      (SACImpl.compute_targetSt samp evc sexp ss b3).1.temp_optim =
        ss.temp_optim ∧
      (SACImpl.compute_targetSt samp evc sexp ss b3).2.tags = []) ∧
    ((DiscreteSACImpl.compute_targetSt pol tev sexp sd b4).1.policy.params
        = sd.policy.params ∧
      (DiscreteSACImpl.compute_targetSt pol tev sexp sd b4).1.q_funcs.params
        = sd.q_funcs.params ∧
      (DiscreteSACImpl.compute_targetSt pol tev sexp sd
        b4).1.targ_q_funcs.params = sd.targ_q_funcs.params ∧
      (DiscreteSACImpl.compute_targetSt pol tev sexp sd
        b4).1.log_temp.params = sd.log_temp.params ∧
      (DiscreteSACImpl.compute_targetSt pol tev sexp sd b4).1.actor_optim
        = sd.actor_optim ∧
      (DiscreteSACImpl.compute_targetSt pol tev sexp sd b4).1.critic_optim
        = sd.critic_optim ∧
      (DiscreteSACImpl.compute_targetSt pol tev sexp sd b4).1.temp_optim
        = sd.temp_optim ∧
      (DiscreteSACImpl.compute_targetSt pol tev sexp sd b4).2.tags = []) :=
  ⟨⟨rfl, rfl, rfl, rfl, rfl, rfl⟩,
   ⟨rfl, rfl, rfl, rfl, rfl, rfl⟩,
   ⟨rfl, rfl, rfl, rfl, rfl, rfl, rfl, rfl⟩,
   ⟨rfl, rfl, rfl, rfl, rfl, rfl, rfl, rfl⟩⟩

/-- C10: DiscreteSACImpl.update_actor, run in the instrumented semantics,
leaves the parameters of q_funcs, targ_q_funcs and log_temp unchanged,
steps only the actor optimizer (which applies the update rule to the
policy parameters), and the actor loss carries gradient tags for the
policy and the log temperature only: the Q values enter it without
gradient tracking, so the Q ensemble gradient buffers also stay as they
were. -/
theorem c10_update_actor_frame (Obs : Type)
    (pol : List (List ℚ) → Obs → CatDist) (ev : List ℚ → Obs → List ℚ)
    (sexp : ℚ → ℚ) (stepFn : List (List ℚ) → List (List ℚ))
    (s : DiscreteSACModulesSt) (batch : TorchMiniBatch Obs) :
    (DiscreteSACImpl.update_actorSt pol ev sexp stepFn s
        batch).1.q_funcs.params = s.q_funcs.params ∧
    (DiscreteSACImpl.update_actorSt pol ev sexp stepFn s
        batch).1.targ_q_funcs.params = s.targ_q_funcs.params ∧
    (DiscreteSACImpl.update_actorSt pol ev sexp stepFn s
        batch).1.log_temp.params = s.log_temp.params ∧
    (DiscreteSACImpl.update_actorSt pol ev sexp stepFn s
        batch).1.critic_optim = s.critic_optim ∧
    (DiscreteSACImpl.update_actorSt pol ev sexp stepFn s
        batch).1.temp_optim = s.temp_optim ∧
    (DiscreteSACImpl.update_actorSt pol ev sexp stepFn s
        batch).1.actor_optim.steps = s.actor_optim.steps + 1 ∧
    (DiscreteSACImpl.update_actorSt pol ev sexp stepFn s
        batch).1.q_funcs.gradDirty = s.q_funcs.gradDirty ∧
    (DiscreteSACImpl.update_actorSt pol ev sexp stepFn s
        batch).1.targ_q_funcs.gradDirty = s.targ_q_funcs.gradDirty ∧
    (∀ s0 : DiscreteSACModulesSt,
      (DiscreteSACImpl.compute_actor_lossSt pol ev sexp s0 batch).2.tags =
        [Tag.policy, Tag.log_temp]) := by
  refine ⟨rfl, rfl, rfl, rfl, rfl, rfl, ?_, ?_, fun s0 => rfl⟩ <;>
    simp [DiscreteSACImpl.update_actorSt,
      DiscreteSACImpl.compute_actor_lossSt, DiscreteSACImpl.backwardSt,
      fwdDiscreteExpectedQMin, fwdCatPolicy, fwdLogTemp, fwdStats,
      fwdTags]

/-- Witness for the C2 theorem at concrete module bundles whose target
parameters have drifted away from the live parameters. -/
theorem c2_hard_sync_invariant_witness :
    (dqnStW.targ_q_funcs.params.length = dqnStW.q_funcs.params.length ∧
      dsacStW.targ_q_funcs.params.length =
        dsacStW.q_funcs.params.length) ∧
    (DQNImpl.initSt dqnStW).targ_q_funcs.params =
      (DQNImpl.initSt dqnStW).q_funcs.params ∧
    (DQNImpl.update_targetSt dqnStW).targ_q_funcs.params =
      (DQNImpl.update_targetSt dqnStW).q_funcs.params ∧
    (DiscreteSACImpl.initSt dsacStW).targ_q_funcs.params =
      (DiscreteSACImpl.initSt dsacStW).q_funcs.params ∧
    (DiscreteSACImpl.update_targetSt dsacStW).targ_q_funcs.params =
      (DiscreteSACImpl.update_targetSt dsacStW).q_funcs.params :=
  ⟨⟨by decide, by decide⟩,
   c2_hard_sync_invariant.1 dqnStW (by decide),
   c2_hard_sync_invariant.2.1 dqnStW (by decide),
   c2_hard_sync_invariant.2.2.1 dsacStW (by decide),
   c2_hard_sync_invariant.2.2.2 dsacStW (by decide)⟩

/-- Witness for the C3 theorem at a concrete rank-2 target and a concrete
rank-3 target. -/
theorem c3_discrete_sac_target_shape_witness :
    ((0 : Nat) < 2 ∧
      DiscreteSACImpl.compute_target dsacSelfW2 dsacBatchW =
        DTensor.t2 (List.zipWith
          (fun o trow => specDiscreteTargetRow2
            (dsacSelfW2.texp dsacSelfW2.log_temp) (dsacSelfW2.policy o)
            trow)
          dsacBatchW.next_observations [[2, 4]]) ∧
      (DiscreteSACImpl.compute_target dsacSelfW2 dsacBatchW).dim = 2) ∧
    (DiscreteSACImpl.compute_target dsacSelfW3 dsacBatchW =
        DTensor.t2 (List.zipWith
          (fun o mat => specDiscreteTargetRow3
            (dsacSelfW3.texp dsacSelfW3.log_temp) 2 (dsacSelfW3.policy o)
            mat)
          dsacBatchW.next_observations [[[2, 3], [4, 5]]]) ∧
      (DiscreteSACImpl.compute_target dsacSelfW3 dsacBatchW).dim = 2) :=
  ⟨⟨by decide,
    (c3_discrete_sac_target_shape Unit dsacSelfW2 dsacBatchW 2 (by decide)
      (by decide)).1 [[2, 4]] (by rfl) (by decide)⟩,
   (c3_discrete_sac_target_shape Unit dsacSelfW3 dsacBatchW 2 (by decide)
      (by decide)).2 2 [[[2, 3], [4, 5]]] (by rfl) (by decide)⟩

/-- Witness for the C7 theorem at a concrete implementation whose
exponential model is a square, hence nonnegative everywhere, and at a
concrete module bundle for the instrumented no-grad conjuncts. -/
theorem c7_sac_update_temp_witness :
    (SACImpl.update_temp sacSelfW sacBatchW).lookup "temp_loss" =
      some (-(qmean (sacBatchW.observations.map (fun o =>
        sacSelfW.texp sacSelfW.log_temp *
          ((sacSelfW.policy_sample o).2 -
            (sacSelfW.action_size : ℚ)))))) ∧
    (SACImpl.update_temp sacSelfW sacBatchW).lookup "temp" =
      some (sacSelfW.texp sacSelfW.log_temp) ∧
    (∀ t, (SACImpl.update_temp sacSelfW sacBatchW).lookup "temp" = some t →
      0 ≤ t) ∧
    (SACImpl.update_tempSt (fun _ _ => ((), -2)) (fun q => q * q)
      sacSelfW.action_size (fun p => p) sacStW
      sacBatchW).targ_temp.tags = [] ∧
    (SACImpl.update_tempSt (fun _ _ => ((), -2)) (fun q => q * q)
      sacSelfW.action_size (fun p => p) sacStW
      sacBatchW).loss.tags = [Tag.log_temp] :=
  c7_sac_update_temp Unit Unit sacSelfW sacBatchW
    (fun _ _ => ((), -2)) (fun q => q * q) (fun p => p) sacStW
    (fun x => mul_self_nonneg x)

end D3rlpy
